import Mathlib

/-!
# Verification of the gkraken presenter core

A shallow embedding of the profile-to-duty resolution, profile-store upsert,
apply-error handling, status-poller and chart-data logic of
`gkraken/presenter.py` and `gkraken/util/view.py`, together with proofs of
the specified properties.

Conventions of the embedding:
* Python `int` temperatures become `Int`, duty percentages become `Nat`.
* The measured liquid temperature is a Python `float`; only order comparisons
  are performed on it, so it is embedded as `Rat`.
* Fallible device calls are `Except String`; Python `None` becomes `none`.
* The peewee active-record table of `CurrentSpeedProfile` rows is embedded as
  a list of records in insertion order; `get_or_none` is `List.find?` and
  `save()` on a fetched row replaces that row (the first matching one) in
  place.
* A Python `dict` is embedded as a key-value list in insertion order with
  unique keys (`dictSet` preserves the position of an existing key, exactly
  like `dict.__setitem__`).
-/

set_option linter.unusedVariables false

/-- One `(temperature, duty)` point of a profile (the `SpeedStep` model). -/
structure SpeedStep where
  temperature : Int
  duty : Nat
  deriving DecidableEq, Repr

/-- A named temperature→duty curve for one channel (the `SpeedProfile`
model). The `channel` field holds the `ChannelType` enum value string. -/
structure SpeedProfile where
  id : Nat
  channel : String
  name : String
  steps : List SpeedStep
  single_step : Bool
  deriving DecidableEq, Repr

/-- Modelled from the spec: the `ChannelType` enum of `gkraken/model.py` (not
under `src/`); a Channel is "a controllable device output (fan or pump)" and
`ChannelType.FAN.value` / `ChannelType.PUMP.value` are the strings stored in
`SpeedProfile.channel` and used as statusbar message text. -/
def ChannelType.FAN : String := "fan"

/-- Modelled from the spec: the pump member of the `ChannelType` enum. -/
def ChannelType.PUMP : String := "pump"

/-- One persisted row of the `CurrentSpeedProfile` table: the profile
currently applied to `channel`. -/
structure CurrentSpeedProfile where
  channel : String
  profile : SpeedProfile
  deriving DecidableEq, Repr

/-- A status snapshot produced per poll tick (the `Status` model): liquid
temperature plus the device-reported speeds. -/
structure Status where
  liquid_temperature : Rat
  fan_speed : Option Nat
  pump_speed : Option Nat
  deriving DecidableEq, Repr

/-- `CurrentSpeedProfile.get_or_none(channel=ch)`: first row of the table
whose channel equals `ch`, or `none`. -/
def get_or_none (store : List CurrentSpeedProfile) (ch : String) :
    Option CurrentSpeedProfile :=
  store.find? (fun c => c.channel == ch)

/-- The list comprehension of `Presenter._update_status`:
`[i.duty for i in last_applied.profile.steps if status.liquid_temperature >= i.temperature]`. -/
def qualifyingDuties (steps : List SpeedStep) (t : Rat) : List Nat :=
  (steps.filter (fun i => decide ((i.temperature : Rat) ≤ t))).map (fun i => i.duty)

/-- The duty override chosen by `Presenter._update_status`: `duties[-1]` when
`duties` is non-empty, otherwise no override. -/
def resolveDuty (steps : List SpeedStep) (t : Rat) : Option Nat :=
  (qualifyingDuties steps t).getLast?

/-- `Presenter._update_status(status)`. Returns the argument passed to
`view.refresh_status`, or `none` when `refresh_status` is not called (i.e.
when the incoming status is `None`). `should` is
`self._should_update_fan_speed` and `store` is the `CurrentSpeedProfile`
table read by `get_or_none`. -/
def update_status (should : Bool) (store : List CurrentSpeedProfile)
    (status : Option Status) : Option Status :=
  match status with
  | none => none
  | some s =>
    if should then
      match get_or_none store ChannelType.FAN with
      | some last_applied =>
        match resolveDuty last_applied.profile.steps s.liquid_temperature with
        | some d => some { s with fan_speed := some d }
        | none => some s
      | none => some s
    else
      some s

/-- The complete effect of one delivery to `_update_status`: the method never
writes a presenter field (it only reads `_should_update_fan_speed` and the
`CurrentSpeedProfile` table), so its full effect is the unchanged state
paired with the value passed to `view.refresh_status`, if any. -/
def update_status_effect (should : Bool) (store : List CurrentSpeedProfile)
    (status : Option Status) : (Bool × List CurrentSpeedProfile) × Option Status :=
  ((should, store), update_status should store status)

/-- `current.profile = profile; current.save()` on the row returned by
`get_or_none`: the first row with the given channel is replaced in place. -/
def saveReplaceFirst : List CurrentSpeedProfile → String → SpeedProfile →
    List CurrentSpeedProfile
  | [], _, _ => []
  | c :: rest, ch, p =>
    if c.channel == ch then { c with profile := p } :: rest
    else c :: saveReplaceFirst rest ch p

/-- `Presenter._update_current_speed_profile(profile)`: upsert the row for
the profile's channel (`create` when `get_or_none` found nothing, in-place
`save` otherwise) and set the statusbar text
`'%s cooling profile applied' % profile.channel.capitalize()`. Returns the
new table and that text. -/
def update_current_speed_profile (store : List CurrentSpeedProfile)
    (profile : SpeedProfile) : List CurrentSpeedProfile × String :=
  match get_or_none store profile.channel with
  | none => (store ++ [⟨profile.channel, profile⟩],
      profile.channel.capitalize ++ " cooling profile applied")
  | some _ => (saveReplaceFirst store profile.channel profile,
      profile.channel.capitalize ++ " cooling profile applied")

/-- The presenter-side state touched by `_set_speed_profile`: the persisted
`CurrentSpeedProfile` table, the statusbar text, and whether the refresh
(poll) subscription is in place. -/
structure AppState where
  store : List CurrentSpeedProfile
  statusbar : String
  refreshSubscribed : Bool
  deriving DecidableEq, Repr

/-- The `on_error` statusbar text of `_set_speed_profile`:
`'Error applying %s speed profile!' % profile.channel`. -/
def apply_error_message (profile : SpeedProfile) : String :=
  "Error applying " ++ profile.channel ++ " speed profile!"

/-- `Presenter._set_speed_profile(profile)`: `deviceResult` is the outcome of
`SetSpeedProfileInteractor.execute(profile.channel, step data)`. On success
the `on_next` handler runs `_update_current_speed_profile`; on error the
`on_error` handler only logs and sets the statusbar text. Neither handler
touches the refresh subscription. -/
def set_speed_profile (st : AppState) (profile : SpeedProfile)
    (deviceResult : Except String Unit) : AppState :=
  match deviceResult with
  | .ok _ =>
    let r := update_current_speed_profile st.store profile
    { st with store := r.1, statusbar := r.2 }
  | .error _ => { st with statusbar := apply_error_message profile }

/-- One poll tick's visible effect: the value delivered to `_update_status`
and the error text surfaced (logged and written to the statusbar), if any. -/
structure TickEffect where
  delivered : Option Status
  surfacedError : Option String
  deriving DecidableEq, Repr

/-- `Presenter._log_exception_return_empty_observable(ex)`: logs the
exception, surfaces `str(ex)` via `set_statusbar_text` and substitutes
`Observable.just(None)` for the failed fetch. -/
def log_exception_return_empty_observable (ex : String) : TickEffect :=
  ⟨none, some ex⟩

/-- `Presenter._get_status()`: the per-tick fetch wrapped in
`catch_exception(_log_exception_return_empty_observable)`; the resulting
per-tick observable never errors. -/
def get_status (fetch : Except String Status) : Except String TickEffect :=
  match fetch with
  | .ok s => .ok ⟨some s, none⟩
  | .error e => .ok (log_exception_return_empty_observable e)

/-- Rx subscription semantics for the flat-mapped interval stream of
`_start_refresh`: ticks are delivered in order, and an uncaught error
terminates the subscription (no later tick is delivered). -/
def runSubscription : List (Except String TickEffect) → List TickEffect
  | [] => []
  | .ok v :: rest => v :: runSubscription rest
  | .error _ :: _ => []

/-- `Presenter._start_refresh`: the interval stream flat-maps `_get_status`
over each tick's fetch outcome and subscribes to the result. -/
def start_refresh (fetches : List (Except String Status)) : List TickEffect :=
  runSubscription (fetches.map get_status)

/-- Observable events of the startup sequence, in program order. -/
inductive StartEvent where
  | applyInitiated (channel : String) (profileId : Nat)
  | comboboxRefreshed (channel : String)
  | settingsRefreshed
  | errorSurfaced (text : String)
  | statusPublished (s : Status)
  deriving DecidableEq, Repr

/-- The per-channel body of `Presenter._init_speed_profiles`: when the
`settings_load_last_profile` setting is on and a `CurrentSpeedProfile` row
exists for the channel, `_set_speed_profile` is initiated for the persisted
profile; then the channel's combobox is refreshed. -/
def init_channel_trace (loadLast : Bool) (store : List CurrentSpeedProfile)
    (ch : String) : List StartEvent :=
  (if loadLast then
    match get_or_none store ch with
    | some current => [StartEvent.applyInitiated ch current.profile.id]
    | none => []
  else []) ++ [StartEvent.comboboxRefreshed ch]

/-- `Presenter._init_speed_profiles`: the loop `for channel in ChannelType`
(FAN first, then PUMP). -/
def init_speed_profiles_trace (loadLast : Bool)
    (store : List CurrentSpeedProfile) : List StartEvent :=
  [ChannelType.FAN, ChannelType.PUMP].flatMap (init_channel_trace loadLast store)

/-- The events produced by the refresh subscription: per delivered tick, the
surfaced fetch error (if the fetch failed) and the status published by
`_update_status` (when the delivered status is not `None`). -/
def poll_trace (should : Bool) (store : List CurrentSpeedProfile)
    (ticks : List TickEffect) : List StartEvent :=
  ticks.flatMap (fun t =>
    (match t.surfacedError with
     | some e => [StartEvent.errorSurfaced e]
     | none => []) ++
    (match update_status should store t.delivered with
     | some s => [StartEvent.statusPublished s]
     | none => []))

/-- `Presenter.on_start`: `_init_speed_profiles`, then `_init_settings`, then
`_start_refresh`; status ticks can be published only after the refresh
subscription is made. After `_init_speed_profiles`,
`_should_update_fan_speed` is true exactly when the load-last-profile
setting is on. -/
def on_start_trace (loadLast : Bool) (store : List CurrentSpeedProfile)
    (fetches : List (Except String Status)) : List StartEvent :=
  init_speed_profiles_trace loadLast store ++ [StartEvent.settingsRefreshed] ++
    poll_trace loadLast store (start_refresh fetches)

/-- Python `dict.__setitem__`: overwrite in place when the key exists,
append otherwise. Dicts built from `[]` by `dictSet` have unique keys in
insertion order, matching CPython semantics. -/
def dictSet : List (Int × Nat) → Int → Nat → List (Int × Nat)
  | [], k, v => [(k, v)]
  | kv :: rest, k, v =>
    if kv.1 == k then (k, v) :: rest else kv :: dictSet rest k v

/-- Python `dict.__getitem__` (as an `Option` to stay total). -/
def dictGet? (d : List (Int × Nat)) (k : Int) : Option Nat :=
  (d.find? (fun kv => kv.1 == k)).map (fun kv => kv.2)

/-- Python `k in dict`. -/
def dictHasKey (d : List (Int × Nat)) (k : Int) : Bool :=
  d.any (fun kv => kv.1 == k)

/-- The dict comprehension `{p.temperature: p.duty for p in profile.steps}`
of `get_speed_profile_data`: later steps overwrite earlier ones with the
same temperature. -/
def dictOfSteps (steps : List SpeedStep) : List (Int × Nat) :=
  steps.foldl (fun d s => dictSet d s.temperature s.duty) []

/-- Python `min(data.keys())` (as an `Option` to stay total). -/
def dictMinKey (d : List (Int × Nat)) : Option Int := (d.map Prod.fst).min?

/-- `gkraken/util/view.py get_speed_profile_data(profile)`. The constants
`MIN_TEMP`, `MAX_TEMP` and `MAX_DUTY` come from `gkraken/conf.py`, which is
not under `src/`, so they are taken as parameters. The `.getD 0` defaults
replace Python's raising lookups and are only reached when `data` is empty,
which the surrounding `if data:` check rules out. -/
def get_speed_profile_data (MIN_TEMP MAX_TEMP : Int) (MAX_DUTY : Nat)
    (profile : SpeedProfile) : List (Int × Nat) :=
  let data := dictOfSteps profile.steps
  if data.isEmpty then data
  else if profile.single_step then
    dictSet data MAX_TEMP (match profile.steps with
      | [] => 0
      | s :: _ => s.duty)
  else
    let data1 := if dictHasKey data MIN_TEMP then data
      else dictSet data MIN_TEMP ((dictGet? data ((dictMinKey data).getD 0)).getD 0)
    dictSet data1 MAX_TEMP MAX_DUTY

/-- A fixed FAN profile used as concrete input in witnesses. -/
def pSilent : SpeedProfile :=
  ⟨1, ChannelType.FAN, "Silent", [⟨20, 30⟩, ⟨40, 60⟩, ⟨60, 100⟩], false⟩

/-- In a list that is pairwise related by `r`, every element either is the
last element or is related to it. -/
theorem list_rel_getLast {α : Type} {r : α → α → Prop} :
    ∀ (l : List α) (h : l ≠ []) (hp : l.Pairwise r) (a : α), a ∈ l →
      a = l.getLast h ∨ r a (l.getLast h) := by
  intro l
  induction l with
  | nil => intro h; exact absurd rfl h
  | cons x t ih =>
    intro h hp a ha
    match t with
    | [] =>
      simp at ha
      subst ha
      left
      simp
    | y :: t' =>
      have hne : (y :: t') ≠ [] := by simp
      rw [List.getLast_cons hne]
      rcases List.mem_cons.mp ha with hax | hat
      · subst hax
        right
        exact (List.pairwise_cons.mp hp).1 _ (List.getLast_mem hne)
      · exact ih hne (List.pairwise_cons.mp hp).2 a hat

/-- C1: for a profile whose steps are sorted ascending by temperature and a
measured temperature `T`, `_update_status` resolves to the duty of the step
with the greatest temperature among those with temperature ≤ `T`; when no
step has temperature ≤ `T` there is no override and the device-reported
`fan_speed` is kept unchanged in the published status. -/
theorem resolve_greatest_qualifying (steps : List SpeedStep) (T : Rat)
    (hsorted : steps.Pairwise (fun a b => a.temperature < b.temperature)) :
    ((∀ s ∈ steps, T < (s.temperature : Rat)) → resolveDuty steps T = none) ∧
    ((∃ s ∈ steps, (s.temperature : Rat) ≤ T) →
      ∃ m ∈ steps, (m.temperature : Rat) ≤ T ∧
        (∀ s ∈ steps, (s.temperature : Rat) ≤ T → s.temperature ≤ m.temperature) ∧
        resolveDuty steps T = some m.duty) ∧
    (∀ (st : Status) (p : SpeedProfile), p.steps = steps →
      st.liquid_temperature = T → (∀ s ∈ steps, T < (s.temperature : Rat)) →
      update_status true [⟨ChannelType.FAN, p⟩] (some st) = some st) := by
  have hnone : (∀ s ∈ steps, T < (s.temperature : Rat)) → resolveDuty steps T = none := by
    intro hall
    unfold resolveDuty qualifyingDuties
    have : steps.filter (fun i => decide ((i.temperature : Rat) ≤ T)) = [] := by
      rw [List.filter_eq_nil_iff]
      intro a ha
      simp only [decide_eq_true_eq]
      exact not_le.mpr (hall a ha)
    rw [this]
    rfl
  refine ⟨hnone, ?_, ?_⟩
  · rintro ⟨s, hs, hsT⟩
    set F := steps.filter (fun i => decide ((i.temperature : Rat) ≤ T)) with hF
    have hsF : s ∈ F := by
      rw [hF, List.mem_filter]
      exact ⟨hs, by simpa using hsT⟩
    have hne : F ≠ [] := List.ne_nil_of_mem hsF
    have hpF : F.Pairwise (fun a b => a.temperature < b.temperature) :=
      List.Pairwise.sublist (List.filter_sublist _) hsorted
    refine ⟨F.getLast hne, ?_, ?_, ?_, ?_⟩
    · exact List.mem_of_mem_filter (List.getLast_mem hne)
    · have := List.mem_filter.mp (List.getLast_mem hne)
      simpa using this.2
    · intro s' hs' hs'T
      have hs'F : s' ∈ F := by
        rw [hF, List.mem_filter]
        exact ⟨hs', by simpa using hs'T⟩
      rcases list_rel_getLast F hne hpF s' hs'F with heq | hlt
      · rw [heq]
      · exact le_of_lt hlt
    · unfold resolveDuty qualifyingDuties
      rw [← hF, List.getLast?_map, List.getLast?_eq_getLast F hne]
      rfl
  · intro st p hp hT hall
    have : resolveDuty p.steps st.liquid_temperature = none := by
      rw [hp, hT]; exact hnone hall
    simp [update_status, get_or_none, List.find?, ChannelType.FAN, this]

/-- C1 witness: the spec's own example, steps `[(20,30),(40,60),(60,100)]` at
measured temperature 45 (the resolved duty there is 60). -/
theorem resolve_greatest_qualifying_witness :
    (([⟨20,30⟩,⟨40,60⟩,⟨60,100⟩] : List SpeedStep).Pairwise
        (fun a b => a.temperature < b.temperature)) ∧
    (((∀ s ∈ ([⟨20,30⟩,⟨40,60⟩,⟨60,100⟩] : List SpeedStep),
          (45 : Rat) < (s.temperature : Rat)) →
        resolveDuty [⟨20,30⟩,⟨40,60⟩,⟨60,100⟩] 45 = none) ∧
      ((∃ s ∈ ([⟨20,30⟩,⟨40,60⟩,⟨60,100⟩] : List SpeedStep),
          (s.temperature : Rat) ≤ (45 : Rat)) →
        ∃ m ∈ ([⟨20,30⟩,⟨40,60⟩,⟨60,100⟩] : List SpeedStep),
          (m.temperature : Rat) ≤ (45 : Rat) ∧
          (∀ s ∈ ([⟨20,30⟩,⟨40,60⟩,⟨60,100⟩] : List SpeedStep),
            (s.temperature : Rat) ≤ (45 : Rat) → s.temperature ≤ m.temperature) ∧
          resolveDuty [⟨20,30⟩,⟨40,60⟩,⟨60,100⟩] 45 = some m.duty) ∧
      (∀ (st : Status) (p : SpeedProfile), p.steps = [⟨20,30⟩,⟨40,60⟩,⟨60,100⟩] →
        st.liquid_temperature = 45 →
        (∀ s ∈ ([⟨20,30⟩,⟨40,60⟩,⟨60,100⟩] : List SpeedStep),
          (45 : Rat) < (s.temperature : Rat)) →
        update_status true [⟨ChannelType.FAN, p⟩] (some st) = some st)) :=
  ⟨by decide, resolve_greatest_qualifying [⟨20,30⟩,⟨40,60⟩,⟨60,100⟩] 45 (by decide)⟩

/-- C5 counterexample: a `single_step` profile whose one step has duty 75 but
temperature 30 does not resolve to 75 at measured temperature 20: the
resolver returns no override and the published status keeps the
device-reported fan speed (42). -/
theorem single_step_counterexample :
    resolveDuty (SpeedProfile.mk 1 ChannelType.FAN "Fixed" [⟨30, 75⟩] true).steps 20 = none ∧
    update_status true
        [⟨ChannelType.FAN, SpeedProfile.mk 1 ChannelType.FAN "Fixed" [⟨30, 75⟩] true⟩]
        (some ⟨20, some 42, none⟩) = some ⟨20, some 42, none⟩ := by
  constructor <;> rfl

/-- C5 (amended): a `single_step` profile with a single step of duty 75
resolves to 75 for every measured temperature at or above the step's
temperature (below it the resolver yields no override, see the
counterexample). -/
theorem single_step_fixed_duty_above_step (p : SpeedProfile) (t0 : Int) (T : Rat)
    (hss : p.single_step = true) (hsteps : p.steps = [⟨t0, 75⟩])
    (hT : (t0 : Rat) ≤ T) :
    resolveDuty p.steps T = some 75 := by
  rw [hsteps]
  unfold resolveDuty qualifyingDuties
  simp [hT]

/-- C5 (amended) witness: the fixed profile with step `(30, 75)` resolves to
75 at measured temperature 45. -/
theorem single_step_fixed_duty_above_step_witness :
    (SpeedProfile.mk 1 ChannelType.FAN "Fixed" [⟨30, 75⟩] true).single_step = true ∧
    (SpeedProfile.mk 1 ChannelType.FAN "Fixed" [⟨30, 75⟩] true).steps = [⟨30, 75⟩] ∧
    ((30 : Int) : Rat) ≤ 45 ∧
    resolveDuty (SpeedProfile.mk 1 ChannelType.FAN "Fixed" [⟨30, 75⟩] true).steps 45 = some 75 :=
  ⟨rfl, rfl, by decide,
    single_step_fixed_duty_above_step _ 30 45 rfl rfl (by decide)⟩

/-- C6: when `_should_update_fan_speed` is false (restore/track-last-profile
mode not active for the FAN channel), `_update_status` publishes the
snapshot to `view.refresh_status` completely unchanged, whatever the store
holds. -/
theorem update_status_passthrough_when_inactive
    (store : List CurrentSpeedProfile) (s : Status) :
    update_status false store (some s) = some s := rfl

/-- C7: when two steps share a temperature that qualifies (≤ measured `T`)
and every step after them does not qualify, the resolver returns the duty of
the later-iterated (last-inserted) of the tied steps. -/
theorem tie_break_last_inserted (l l' : List SpeedStep) (s1 s2 : SpeedStep) (T : Rat)
    (htie : s1.temperature = s2.temperature) (hq : (s2.temperature : Rat) ≤ T)
    (hafter : ∀ s ∈ l', T < (s.temperature : Rat)) :
    resolveDuty (l ++ s1 :: s2 :: l') T = some s2.duty := by
  unfold resolveDuty qualifyingDuties
  have h2 : decide ((s2.temperature : Rat) ≤ T) = true := by simpa using hq
  have h1 : decide ((s1.temperature : Rat) ≤ T) = true := by rw [htie]; exact h2
  have hnil : l'.filter (fun i => decide ((i.temperature : Rat) ≤ T)) = [] := by
    rw [List.filter_eq_nil_iff]
    intro a ha
    simp only [decide_eq_true_eq]
    exact not_le.mpr (hafter a ha)
  rw [List.filter_append]
  simp only [List.filter_cons, h1, h2, if_true, hnil]
  rw [show (s1 :: s2 :: ([] : List SpeedStep)) = [s1] ++ [s2] by rfl]
  rw [← List.append_assoc, List.map_append]
  simp [List.getLast?_concat]

/-- C7 witness: steps `[(20,30),(40,60),(40,65),(50,90)]` at measured
temperature 45 resolve to 65, the duty of the later-inserted tied step. -/
theorem tie_break_last_inserted_witness :
    (SpeedStep.mk 40 60).temperature = (SpeedStep.mk 40 65).temperature ∧
    ((SpeedStep.mk 40 65).temperature : Rat) ≤ 45 ∧
    (∀ s ∈ ([⟨50, 90⟩] : List SpeedStep), (45 : Rat) < (s.temperature : Rat)) ∧
    resolveDuty ([⟨20, 30⟩] ++ ⟨40, 60⟩ :: ⟨40, 65⟩ :: [⟨50, 90⟩]) 45 = some 65 :=
  ⟨rfl, by decide, by decide,
    tie_break_last_inserted [⟨20, 30⟩] [⟨50, 90⟩] ⟨40, 60⟩ ⟨40, 65⟩ 45 rfl
      (by decide) (by decide)⟩

/-- C10: a `None` status delivered after a failed fetch is silently skipped:
`refresh_status` is not called and no presenter state changes. -/
theorem none_status_skipped (should : Bool) (store : List CurrentSpeedProfile) :
    update_status_effect should store none = ((should, store), none) := rfl

/-- An in-place `save` never changes the number of rows. -/
theorem length_saveReplaceFirst (store : List CurrentSpeedProfile)
    (ch : String) (p : SpeedProfile) :
    (saveReplaceFirst store ch p).length = store.length := by
  induction store with
  | nil => rfl
  | cons c rest ih =>
    unfold saveReplaceFirst
    split <;> simp [ih]

/-- After an in-place `save` on a table that has a row for `ch` and at most
one row per channel, the rows for `ch` are exactly the saved one. -/
theorem filter_saveReplaceFirst :
    ∀ (store : List CurrentSpeedProfile) (ch : String) (p : SpeedProfile),
      (∃ c ∈ store, c.channel == ch) →
      (store.filter (fun c => c.channel == ch)).length ≤ 1 →
      (saveReplaceFirst store ch p).filter (fun c => c.channel == ch) =
        [⟨ch, p⟩] := by
  intro store
  induction store with
  | nil => rintro ch p ⟨c, hc, _⟩ _; exact absurd hc (List.not_mem_nil c)
  | cons c rest ih =>
    rintro ch p ⟨w, hw, hwch⟩ hinv
    unfold saveReplaceFirst
    by_cases h : c.channel == ch
    · have hch : c.channel = ch := by simpa using h
      have hrest : rest.filter (fun x => x.channel == ch) = [] := by
        simp only [List.filter_cons, h, if_true, List.length_cons] at hinv
        have h0 : (rest.filter (fun x => x.channel == ch)).length = 0 := by omega
        exact List.length_eq_zero.mp h0
      simp [h, List.filter_cons, hrest, hch]
    · have hcf : (c.channel == ch) = false := by simpa using h
      rw [if_neg h]
      simp only [List.filter_cons, hcf, Bool.false_eq_true, if_false] at hinv ⊢
      rcases List.mem_cons.mp hw with hwc | hwrest
      · subst hwc; exact absurd hwch h
      · exact ih ch p ⟨w, hwrest, hwch⟩ hinv

/-- After one upsert on a table with at most one row per channel, the rows
for the profile's channel are exactly the upserted one. -/
theorem filter_update_current (store : List CurrentSpeedProfile) (p : SpeedProfile)
    (hinv : (store.filter (fun c => c.channel == p.channel)).length ≤ 1) :
    (update_current_speed_profile store p).1.filter
      (fun c => c.channel == p.channel) = [⟨p.channel, p⟩] := by
  unfold update_current_speed_profile
  cases hfind : get_or_none store p.channel with
  | none =>
    have hall := List.find?_eq_none.mp hfind
    have hnil : store.filter (fun c => c.channel == p.channel) = [] := by
      rw [List.filter_eq_nil_iff]; exact hall
    simp [List.filter_append, hnil]
  | some c =>
    have hc := List.find?_some hfind
    have hmem := List.mem_of_find?_eq_some hfind
    simp only
    exact filter_saveReplaceFirst store p.channel p ⟨c, hmem, hc⟩ hinv

/-- C2: `_update_current_speed_profile` is an upsert — it appends a row when
the channel has none and rewrites the existing row (same row count)
otherwise — and applying the same profile twice leaves exactly one row for
that channel, equal to that profile. `hinv` is the table invariant of at
most one row per channel. -/
theorem profile_store_upsert_idempotent (store : List CurrentSpeedProfile)
    (p : SpeedProfile)
    (hinv : (store.filter (fun c => c.channel == p.channel)).length ≤ 1) :
    (get_or_none store p.channel = none →
      (update_current_speed_profile store p).1 = store ++ [⟨p.channel, p⟩]) ∧
    (∀ c, get_or_none store p.channel = some c →
      (update_current_speed_profile store p).1.length = store.length) ∧
    ((update_current_speed_profile store p).1.filter
      (fun c => c.channel == p.channel) = [⟨p.channel, p⟩]) ∧
    ((update_current_speed_profile
        (update_current_speed_profile store p).1 p).1.filter
      (fun c => c.channel == p.channel) = [⟨p.channel, p⟩]) := by
  have h1 := filter_update_current store p hinv
  refine ⟨?_, ?_, h1, ?_⟩
  · intro h
    unfold update_current_speed_profile
    rw [h]
  · intro c h
    unfold update_current_speed_profile
    rw [h]
    exact length_saveReplaceFirst store p.channel p
  · exact filter_update_current _ p (by rw [h1]; simp)

/-- C2 witness: applying `pSilent` twice starting from the empty table. -/
theorem profile_store_upsert_idempotent_witness :
    (([] : List CurrentSpeedProfile).filter
      (fun c => c.channel == pSilent.channel)).length ≤ 1 ∧
    ((get_or_none [] pSilent.channel = none →
      (update_current_speed_profile [] pSilent).1 =
        [] ++ [⟨pSilent.channel, pSilent⟩]) ∧
    (∀ c, get_or_none [] pSilent.channel = some c →
      (update_current_speed_profile [] pSilent).1.length =
        ([] : List CurrentSpeedProfile).length) ∧
    ((update_current_speed_profile [] pSilent).1.filter
      (fun c => c.channel == pSilent.channel) = [⟨pSilent.channel, pSilent⟩]) ∧
    ((update_current_speed_profile
        (update_current_speed_profile [] pSilent).1 pSilent).1.filter
      (fun c => c.channel == pSilent.channel) = [⟨pSilent.channel, pSilent⟩])) :=
  ⟨by decide, profile_store_upsert_idempotent [] pSilent (by decide)⟩

/-- C3 (amended): when applying a profile to the device fails, the
`CurrentSpeedProfile` table is left completely unchanged, the refresh (poll)
subscription is untouched, and the surfaced statusbar message names the
affected channel (not the profile's name). -/
theorem apply_failure_frame (st : AppState) (p : SpeedProfile) (e : String) :
    (set_speed_profile st p (.error e)).store = st.store ∧
    (set_speed_profile st p (.error e)).refreshSubscribed = st.refreshSubscribed ∧
    (set_speed_profile st p (.error e)).statusbar = apply_error_message p :=
  ⟨rfl, rfl, rfl⟩

/-- C3 counterexample: the apply-error message is independent of the
profile's name, so it cannot contain the profile name. A FAN profile named
"Silent" yields "Error applying fan speed profile!", which does not contain
"Silent", and a differently named FAN profile yields the identical
message. -/
theorem apply_error_message_ignores_name :
    apply_error_message pSilent = "Error applying fan speed profile!" ∧
    ¬ List.IsInfix pSilent.name.data (apply_error_message pSilent).data ∧
    apply_error_message
        (SpeedProfile.mk 2 ChannelType.FAN "Performance" [⟨20, 40⟩] false) =
      apply_error_message pSilent :=
  ⟨rfl, by decide, rfl⟩

/-- Because `_get_status` catches every fetch error, the subscription never
sees an error and the delivered stream is a plain map of the fetch
outcomes. -/
theorem start_refresh_eq_map (fetches : List (Except String Status)) :
    start_refresh fetches = fetches.map (fun f =>
      match f with
      | .ok s => ⟨some s, none⟩
      | .error e => ⟨none, some e⟩) := by
  induction fetches with
  | nil => rfl
  | cons f rest ih =>
    cases f <;> simp [start_refresh, runSubscription, get_status,
      log_exception_return_empty_observable, List.map_cons] at ih ⊢ <;> exact ih

/-- C4: a fetch failure on tick `n` is caught and surfaced (the tick delivers
`None` plus the error text) and never terminates the periodic sequence:
every tick is delivered, so in particular tick `n+1` still fires, and every
successful tick still delivers its status. -/
theorem poller_survives_fetch_failure (fetches : List (Except String Status))
    (n : Nat) (e : String) (hn : fetches[n]? = some (.error e)) :
    (start_refresh fetches).length = fetches.length ∧
    (start_refresh fetches)[n]? =
      some (log_exception_return_empty_observable e) ∧
    (∀ (m : Nat) (s : Status), fetches[m]? = some (.ok s) →
      (start_refresh fetches)[m]? = some ⟨some s, none⟩) := by
  rw [start_refresh_eq_map]
  refine ⟨by simp, ?_, ?_⟩
  · rw [List.getElem?_map, hn]
    rfl
  · intro m s hm
    rw [List.getElem?_map, hm]
    rfl

/-- C4 witness: three ticks whose middle fetch fails; the failure is
surfaced on tick 1 and tick 2 still delivers its status. -/
theorem poller_survives_fetch_failure_witness :
    ([Except.ok ⟨33, some 900, some 1200⟩, Except.error "USB read failed",
        Except.ok ⟨34, some 910, some 1210⟩] :
      List (Except String Status))[1]? = some (.error "USB read failed") ∧
    ((start_refresh [Except.ok ⟨33, some 900, some 1200⟩,
        Except.error "USB read failed",
        Except.ok ⟨34, some 910, some 1210⟩]).length =
      ([Except.ok ⟨33, some 900, some 1200⟩, Except.error "USB read failed",
        Except.ok ⟨34, some 910, some 1210⟩] :
        List (Except String Status)).length ∧
    (start_refresh [Except.ok ⟨33, some 900, some 1200⟩,
        Except.error "USB read failed",
        Except.ok ⟨34, some 910, some 1210⟩])[1]? =
      some (log_exception_return_empty_observable "USB read failed") ∧
    (∀ (m : Nat) (s : Status),
      ([Except.ok ⟨33, some 900, some 1200⟩, Except.error "USB read failed",
        Except.ok ⟨34, some 910, some 1210⟩] :
        List (Except String Status))[m]? = some (.ok s) →
      (start_refresh [Except.ok ⟨33, some 900, some 1200⟩,
          Except.error "USB read failed",
          Except.ok ⟨34, some 910, some 1210⟩])[m]? = some ⟨some s, none⟩)) :=
  ⟨rfl, poller_survives_fetch_failure
    [Except.ok ⟨33, some 900, some 1200⟩, Except.error "USB read failed",
      Except.ok ⟨34, some 910, some 1210⟩] 1 "USB read failed" rfl⟩

/-- C8: with the load-last-profile setting enabled and a persisted
`CurrentSpeedProfile` row for the FAN channel, the startup sequence initiates
applying that persisted profile (it is the very first event) strictly before
any status tick is published. -/
theorem restore_on_start_before_first_publish (loadLast : Bool)
    (store : List CurrentSpeedProfile) (fetches : List (Except String Status))
    (cur : CurrentSpeedProfile) (hload : loadLast = true)
    (hcur : get_or_none store ChannelType.FAN = some cur) :
    (on_start_trace loadLast store fetches)[0]? =
      some (StartEvent.applyInitiated ChannelType.FAN cur.profile.id) ∧
    (∀ (j : Nat) (s : Status),
      (on_start_trace loadLast store fetches)[j]? =
        some (StartEvent.statusPublished s) → 0 < j) := by
  subst hload
  have h0 : (on_start_trace true store fetches)[0]? =
      some (StartEvent.applyInitiated ChannelType.FAN cur.profile.id) := by
    simp [on_start_trace, init_speed_profiles_trace, init_channel_trace, hcur]
  refine ⟨h0, ?_⟩
  intro j s hj
  cases j with
  | zero => rw [h0] at hj; exact absurd hj (by simp)
  | succ j' => exact Nat.succ_pos j'

/-- C8 witness: startup with the setting on, `pSilent` persisted for FAN and
one successful fetch. -/
theorem restore_on_start_before_first_publish_witness :
    (true = true) ∧
    get_or_none [⟨ChannelType.FAN, pSilent⟩] ChannelType.FAN =
      some ⟨ChannelType.FAN, pSilent⟩ ∧
    ((on_start_trace true [⟨ChannelType.FAN, pSilent⟩]
        [Except.ok ⟨33, some 900, some 1200⟩])[0]? =
      some (StartEvent.applyInitiated ChannelType.FAN
        (CurrentSpeedProfile.mk ChannelType.FAN pSilent).profile.id) ∧
    (∀ (j : Nat) (s : Status),
      (on_start_trace true [⟨ChannelType.FAN, pSilent⟩]
          [Except.ok ⟨33, some 900, some 1200⟩])[j]? =
        some (StartEvent.statusPublished s) → 0 < j)) :=
  ⟨rfl, rfl, restore_on_start_before_first_publish true
    [⟨ChannelType.FAN, pSilent⟩] [Except.ok ⟨33, some 900, some 1200⟩]
    ⟨ChannelType.FAN, pSilent⟩ rfl rfl⟩

/-- Reading back the key just written. -/
theorem dictGet?_set_self (d : List (Int × Nat)) (k : Int) (v : Nat) :
    dictGet? (dictSet d k v) k = some v := by
  induction d with
  | nil => simp [dictSet, dictGet?, List.find?]
  | cons kv rest ih =>
    by_cases h : kv.1 == k
    · simp [dictSet, h, dictGet?, List.find?]
    · have hf : (kv.1 == k) = false := by simpa using h
      simp [dictSet, hf, dictGet?, List.find?] at ih ⊢
      exact ih

/-- Writing one key leaves every other key unchanged. -/
theorem dictGet?_set_ne (d : List (Int × Nat)) (k k' : Int) (v : Nat)
    (h : k' ≠ k) :
    dictGet? (dictSet d k v) k' = dictGet? d k' := by
  have hkk : (k == k') = false := by simpa using (Ne.symm h)
  induction d with
  | nil => simp [dictSet, dictGet?, List.find?, hkk]
  | cons kv rest ih =>
    by_cases hh : kv.1 == k
    · have hkv : kv.1 = k := by simpa using hh
      have hkv' : (kv.1 == k') = false := by
        simp [hkv]
        exact Ne.symm h
      simp [dictSet, hh, dictGet?, List.find?, hkk, hkv']
    · have hf : (kv.1 == k) = false := by simpa using hh
      by_cases hk' : kv.1 == k'
      · simp [dictSet, hf, dictGet?, List.find?, hk']
      · have hf' : (kv.1 == k') = false := by simpa using hk'
        simp [dictSet, hf, dictGet?, List.find?, hf'] at ih ⊢
        exact ih

/-- Value of a key after folding a dict comprehension over `steps`: the duty
of the last step with that temperature, else whatever the accumulator held. -/
theorem dictGet?_foldl :
    ∀ (steps : List SpeedStep) (acc : List (Int × Nat)) (k : Int),
      dictGet? (steps.foldl (fun d s => dictSet d s.temperature s.duty) acc) k =
        match (steps.filter (fun s => s.temperature == k)).getLast? with
        | some s => some s.duty
        | none => dictGet? acc k := by
  intro steps
  induction steps with
  | nil => intro acc k; rfl
  | cons s rest ih =>
    intro acc k
    rw [List.foldl_cons, ih]
    by_cases h : s.temperature == k
    · have hk : s.temperature = k := by simpa using h
      rw [List.filter_cons_of_pos (by simpa using h)]
      cases hrest : (rest.filter (fun s => s.temperature == k)).getLast? with
      | some m => simp [List.getLast?_cons, hrest]
      | none => simp [List.getLast?_cons, hrest, hk, dictGet?_set_self]
    · have hf : (s.temperature == k) = false := by simpa using h
      rw [List.filter_cons_of_neg (by simpa using h)]
      cases hrest : (rest.filter (fun s => s.temperature == k)).getLast? with
      | some m => rfl
      | none =>
        have hk : k ≠ s.temperature := fun he => by simp [he] at hf
        simp [dictGet?_set_ne _ _ _ _ hk]

/-- The dict comprehension read back at `k` is the duty of the last step with
temperature `k`. -/
theorem dictGet?_dictOfSteps (steps : List SpeedStep) (k : Int) :
    dictGet? (dictOfSteps steps) k =
      ((steps.filter (fun s => s.temperature == k)).getLast?).map
        (fun s => s.duty) := by
  rw [dictOfSteps, dictGet?_foldl]
  cases h : (steps.filter (fun s => s.temperature == k)).getLast? with
  | some m => simp [h, dictGet?]
  | none => simp [h, dictGet?]

/-- A key is in a dict's key list exactly when it has a value. -/
theorem mem_keys_iff (d : List (Int × Nat)) (k : Int) :
    k ∈ d.map Prod.fst ↔ (dictGet? d k).isSome := by
  induction d with
  | nil => simp [dictGet?]
  | cons kv rest ih =>
    by_cases h : kv.1 == k
    · have hk : kv.1 = k := by simpa using h
      simp [dictGet?, List.find?, h, hk]
    · have hf : (kv.1 == k) = false := by simpa using h
      have hne : k ≠ kv.1 := by simpa using fun he => by simp [he] at hf
      simp only [List.map_cons, List.mem_cons] at ih ⊢
      rw [dictGet?] at ih ⊢
      simp only [List.find?, hf]
      constructor
      · rintro (he | hm)
        · exact absurd he hne
        · exact ih.mp hm
      · intro hs
        exact Or.inr (ih.mpr hs)

/-- The last element of a list is a member of it. -/
theorem getLast?_mem_list {α : Type} {l : List α} {m : α}
    (h : l.getLast? = some m) : m ∈ l := by
  rcases List.mem_getLast?_eq_getLast (show m ∈ l.getLast? from h) with ⟨hne, heq⟩
  rw [heq]
  exact List.getLast_mem hne

/-- `dictSet` never yields the empty dict. -/
theorem dictSet_ne_nil (d : List (Int × Nat)) (k : Int) (v : Nat) :
    dictSet d k v ≠ [] := by
  cases d with
  | nil => simp [dictSet]
  | cons kv rest =>
    unfold dictSet
    split <;> simp

/-- Folding dict writes over a non-empty accumulator keeps it non-empty. -/
theorem foldl_dictSet_ne_nil :
    ∀ (steps : List SpeedStep) (acc : List (Int × Nat)), acc ≠ [] →
      steps.foldl (fun d s => dictSet d s.temperature s.duty) acc ≠ [] := by
  intro steps
  induction steps with
  | nil => intro acc h; exact h
  | cons s rest ih =>
    intro acc h
    rw [List.foldl_cons]
    exact ih _ (dictSet_ne_nil _ _ _)

/-- The dict comprehension over a non-empty step list is non-empty. -/
theorem dictOfSteps_ne_nil (s0 : SpeedStep) (rest : List SpeedStep) :
    dictOfSteps (s0 :: rest) ≠ [] := by
  rw [dictOfSteps, List.foldl_cons]
  exact foldl_dictSet_ne_nil rest _ (dictSet_ne_nil _ _ _)

/-- `min?` of an integer list returns a member that bounds every member. -/
theorem int_list_min?_spec (l : List Int) (a : Int) (h : l.min? = some a) :
    a ∈ l ∧ ∀ b ∈ l, a ≤ b := by
  haveI : Std.Antisymm (fun (x1 x2 : Int) => x1 ≤ x2) :=
    ⟨fun h1 h2 => le_antisymm h1 h2⟩
  rw [List.min?_eq_some_iff (fun a => le_refl a) (fun a b => min_choice a b)
    (fun a b c => le_min_iff)] at h
  exact h

/-- Membership test of a dict agrees with having a value. -/
theorem dictHasKey_eq_isSome (d : List (Int × Nat)) (k : Int) :
    dictHasKey d k = (dictGet? d k).isSome := by
  induction d with
  | nil => rfl
  | cons kv rest ih =>
    by_cases h : kv.1 == k
    · simp [dictHasKey, dictGet?, List.find?, List.any_cons, h]
    · simp [dictHasKey, dictGet?, List.find?, List.any_cons, h] at ih ⊢
      exact ih

/-- The temperature of every step is a key of the dict comprehension. -/
theorem temp_mem_keys (steps : List SpeedStep) (s : SpeedStep) (hs : s ∈ steps) :
    s.temperature ∈ (dictOfSteps steps).map Prod.fst := by
  rw [mem_keys_iff, dictGet?_dictOfSteps]
  have hmem : s ∈ steps.filter (fun x => x.temperature == s.temperature) :=
    List.mem_filter.mpr ⟨hs, by simp⟩
  have hne := List.ne_nil_of_mem hmem
  cases hlast : (steps.filter (fun x => x.temperature == s.temperature)).getLast? with
  | none => exact absurd (List.getLast?_eq_none_iff.mp hlast) hne
  | some m => simp [hlast]

/-- The dict comprehension has key `k` exactly when some step has
temperature `k`. -/
theorem hasKey_dictOfSteps_iff (steps : List SpeedStep) (k : Int) :
    dictHasKey (dictOfSteps steps) k = true ↔ ∃ s ∈ steps, s.temperature = k := by
  rw [dictHasKey_eq_isSome, dictGet?_dictOfSteps]
  constructor
  · intro h
    cases hlast : (steps.filter (fun x => x.temperature == k)).getLast? with
    | none => rw [hlast] at h; simp at h
    | some m =>
      have hm := getLast?_mem_list hlast
      have := List.mem_filter.mp hm
      exact ⟨m, this.1, by simpa using this.2⟩
  · rintro ⟨s, hs, hk⟩
    have hmem : s ∈ steps.filter (fun x => x.temperature == k) :=
      List.mem_filter.mpr ⟨hs, by simp [hk]⟩
    have hne := List.ne_nil_of_mem hmem
    cases hlast : (steps.filter (fun x => x.temperature == k)).getLast? with
    | none => exact absurd (List.getLast?_eq_none_iff.mp hlast) hne
    | some m => simp [hlast]

/-- C9: `get_speed_profile_data` returns the empty mapping for a profile with
no steps; for a non-empty `single_step` profile it maps `MAX_TEMP` to the
first step's duty; for a non-empty multi-step profile it maps `MAX_TEMP` to
`MAX_DUTY` and, when no step sits at `MIN_TEMP`, additionally maps
`MIN_TEMP` to the duty of a lowest-temperature step. -/
theorem get_speed_profile_data_spec (MIN_TEMP MAX_TEMP : Int) (MAX_DUTY : Nat)
    (p : SpeedProfile) (hMM : MIN_TEMP ≠ MAX_TEMP) :
    (p.steps = [] → get_speed_profile_data MIN_TEMP MAX_TEMP MAX_DUTY p = []) ∧
    (∀ s0 rest, p.steps = s0 :: rest → p.single_step = true →
      dictGet? (get_speed_profile_data MIN_TEMP MAX_TEMP MAX_DUTY p) MAX_TEMP =
        some s0.duty) ∧
    (p.steps ≠ [] → p.single_step = false →
      dictGet? (get_speed_profile_data MIN_TEMP MAX_TEMP MAX_DUTY p) MAX_TEMP =
        some MAX_DUTY ∧
      ((∀ s ∈ p.steps, s.temperature ≠ MIN_TEMP) →
        ∃ m ∈ p.steps, (∀ s ∈ p.steps, m.temperature ≤ s.temperature) ∧
          dictGet? (get_speed_profile_data MIN_TEMP MAX_TEMP MAX_DUTY p) MIN_TEMP =
            some m.duty)) := by
  refine ⟨?_, ?_, ?_⟩
  · intro h
    simp [get_speed_profile_data, h, dictOfSteps]
  · intro s0 rest hsteps hss
    have hfalse : (dictOfSteps (s0 :: rest)).isEmpty = false := by
      simpa [List.isEmpty_iff] using dictOfSteps_ne_nil s0 rest
    rw [get_speed_profile_data]
    simp only [hsteps, hss, hfalse, Bool.false_eq_true, if_false, if_true]
    exact dictGet?_set_self _ _ _
  · intro hne hss
    have hfalse : (dictOfSteps p.steps).isEmpty = false := by
      cases hsteps : p.steps with
      | nil => exact absurd hsteps hne
      | cons s0 rest =>
        simpa [List.isEmpty_iff] using dictOfSteps_ne_nil s0 rest
    rw [get_speed_profile_data]
    simp only [hfalse, Bool.false_eq_true, if_false, hss]
    constructor
    · exact dictGet?_set_self _ _ _
    · intro hnomin
      have hhk : dictHasKey (dictOfSteps p.steps) MIN_TEMP = false := by
        rw [← Bool.not_eq_true]
        intro hcontra
        rcases (hasKey_dictOfSteps_iff p.steps MIN_TEMP).mp hcontra with ⟨s, hs, hteq⟩
        exact hnomin s hs hteq
      simp only [hhk, Bool.false_eq_true, if_false]
      rw [dictGet?_set_ne _ _ _ _ hMM, dictGet?_set_self]
      have hkeysne : (dictOfSteps p.steps).map Prod.fst ≠ [] := by
        intro hk
        cases hsteps : p.steps with
        | nil => exact absurd hsteps hne
        | cons s0 rest =>
          apply dictOfSteps_ne_nil s0 rest
          rw [← hsteps]
          exact List.map_eq_nil_iff.mp hk
      cases hmk : (dictOfSteps p.steps).map Prod.fst |>.min? with
      | none =>
        exact absurd (List.min?_eq_none_iff.mp hmk) hkeysne
      | some mk0 =>
        rcases int_list_min?_spec _ mk0 hmk with ⟨hmem, hmin⟩
        have hiss : (dictGet? (dictOfSteps p.steps) mk0).isSome :=
          (mem_keys_iff _ _).mp hmem
        rw [dictGet?_dictOfSteps] at hiss
        cases hlast : (p.steps.filter (fun x => x.temperature == mk0)).getLast? with
        | none => rw [hlast] at hiss; simp at hiss
        | some m =>
          have hmf := List.mem_filter.mp (getLast?_mem_list hlast)
          have hmtemp : m.temperature = mk0 := by simpa using hmf.2
          refine ⟨m, hmf.1, ?_, ?_⟩
          · intro s hs
            rw [hmtemp]
            exact hmin _ (temp_mem_keys p.steps s hs)
          · rw [dictMinKey, hmk]
            simp only [Option.getD_some]
            rw [dictGet?_dictOfSteps, hlast]
            rfl

/-- C9 witness: chart data of the two-step curve `[(30,40),(50,80)]` with
`MIN_TEMP = 20`, `MAX_TEMP = 60`, `MAX_DUTY = 100`. -/
theorem get_speed_profile_data_spec_witness :
    ((20 : Int) ≠ (60 : Int)) ∧
    (((SpeedProfile.mk 3 ChannelType.FAN "Curve" [⟨30, 40⟩, ⟨50, 80⟩] false).steps = [] →
      get_speed_profile_data 20 60 100
        (SpeedProfile.mk 3 ChannelType.FAN "Curve" [⟨30, 40⟩, ⟨50, 80⟩] false) = []) ∧
    (∀ s0 rest,
      (SpeedProfile.mk 3 ChannelType.FAN "Curve" [⟨30, 40⟩, ⟨50, 80⟩] false).steps =
        s0 :: rest →
      (SpeedProfile.mk 3 ChannelType.FAN "Curve" [⟨30, 40⟩, ⟨50, 80⟩] false).single_step = true →
      dictGet? (get_speed_profile_data 20 60 100
        (SpeedProfile.mk 3 ChannelType.FAN "Curve" [⟨30, 40⟩, ⟨50, 80⟩] false)) 60 =
        some s0.duty) ∧
    ((SpeedProfile.mk 3 ChannelType.FAN "Curve" [⟨30, 40⟩, ⟨50, 80⟩] false).steps ≠ [] →
      (SpeedProfile.mk 3 ChannelType.FAN "Curve" [⟨30, 40⟩, ⟨50, 80⟩] false).single_step = false →
      dictGet? (get_speed_profile_data 20 60 100
        (SpeedProfile.mk 3 ChannelType.FAN "Curve" [⟨30, 40⟩, ⟨50, 80⟩] false)) 60 =
        some 100 ∧
      ((∀ s ∈ (SpeedProfile.mk 3 ChannelType.FAN "Curve" [⟨30, 40⟩, ⟨50, 80⟩] false).steps,
          s.temperature ≠ 20) →
        ∃ m ∈ (SpeedProfile.mk 3 ChannelType.FAN "Curve" [⟨30, 40⟩, ⟨50, 80⟩] false).steps,
          (∀ s ∈ (SpeedProfile.mk 3 ChannelType.FAN "Curve" [⟨30, 40⟩, ⟨50, 80⟩] false).steps,
            m.temperature ≤ s.temperature) ∧
          dictGet? (get_speed_profile_data 20 60 100
            (SpeedProfile.mk 3 ChannelType.FAN "Curve" [⟨30, 40⟩, ⟨50, 80⟩] false)) 20 =
            some m.duty))) :=
  ⟨by decide, get_speed_profile_data_spec 20 60 100
    (SpeedProfile.mk 3 ChannelType.FAN "Curve" [⟨30, 40⟩, ⟨50, 80⟩] false) (by decide)⟩
